import Mathlib

/-!
Shallow embedding of the benbox rebalance planner and order-execution
pipeline (src/trade_handle.py), together with theorems settling the spec
claims about it.

Conventions:
* Python floats are modelled as `ℚ`.
* A `dict` cell that may be a float or a string is modelled as `PyVal`.
* A value that may be `NaN`/`NaT`/missing is modelled as `Option _`.
* Datetimes are modelled as minutes since an epoch (`Nat`); a date string
  such as `"%Y-%m-%d"` parses to the midnight of its day.
-/

/-- A broker response body, after `response.json()` and the list/dict
normalisation at the top of `handle_order_confirmation` (lines 424-431).
`invalid` covers anything that is neither a non-empty list nor a dict;
`record` carries the presence/value of the keys `error`, `order_id` and
`id` that the function inspects. -/
inductive RespData where
  | invalid : RespData
  | record (error : Option String) (order_id : Option String) (id : Option String) : RespData
  deriving DecidableEq

/-- One reply from the broker to a `reply_order` call: HTTP status code and
parsed body. -/
structure BrokerReply where
  status : Nat
  data : RespData
  deriving DecidableEq

/-- Result of `handle_order_confirmation`, one constructor per `return`
statement of the Python function (the formatted message strings are
abstracted into constructors carrying exactly the data interpolated into
them):
* `invalidFormat` — line 431, malformed response;
* `errorNoIdForRetry` — line 447, error response without an `id` to retry
  with (the broker error text is NOT included in this message);
* `errorAfterRetries n e` — line 451, error after the retry budget is
  spent; carries `retry_count` and the broker error text;
* `confirmed oid` — line 457, terminal `order_id` seen;
* `httpError s` — line 469, non-200 status on a confirmation reply;
* `maxRetriesDuring` — line 476, budget exhausted right after a reply;
* `unexpectedStructure` — line 481, dict with none of the three keys;
* `maxRetriesLoop` — line 483, loop guard `retry_count < max_retries`
  failed. -/
inductive ConfirmResult where
  | invalidFormat : ConfirmResult
  | errorNoIdForRetry : ConfirmResult
  | errorAfterRetries (attempts : Nat) (errorMessage : String) : ConfirmResult
  | confirmed (order_id : String) : ConfirmResult
  | httpError (status : Nat) : ConfirmResult
  | maxRetriesDuring : ConfirmResult
  | unexpectedStructure : ConfirmResult
  | maxRetriesLoop : ConfirmResult
  deriving DecidableEq

/-- The `while retry_count < max_retries` loop of
`handle_order_confirmation` (lines 423-483).  `env k` is the broker's
response to the `k`-th `reply_order` call (0-based), so a single `env`
models an arbitrary sequence of broker responses.  `fuel` is
`max_retries - retry_count` (so the loop guard is `0 < fuel`), `replies`
counts the confirmation round-trips issued so far.  Returns the final
result paired with the total number of round-trips. -/
def confirmLoop (env : Nat → BrokerReply) : Nat → RespData → Nat → ConfirmResult × Nat
  | 0, _, replies => (.maxRetriesLoop, replies)
  | _ + 1, .invalid, replies => (.invalidFormat, replies)
  | fuel + 1, .record err oid pid, replies =>
    match err with
    | some e =>
      -- lines 433-451: `retry_count += 1`, retry through `id` if possible
      if 0 < fuel then
        match pid with
        | some _ => confirmLoop env fuel (env replies).data (replies + 1)
        | none => (.errorNoIdForRetry, replies)
      else (.errorAfterRetries (3 - fuel) e, replies)
    | none =>
      match oid with
      | some o => (.confirmed o, replies)              -- lines 453-457
      | none =>
        match pid with
        | some _ =>
          -- lines 459-478: acknowledge the prompt and re-parse
          let r := env replies
          if r.status ≠ 200 then (.httpError r.status, replies + 1)
          else if fuel = 0 then (.maxRetriesDuring, replies + 1)
          else confirmLoop env fuel r.data (replies + 1)
        | none => (.unexpectedStructure, replies)      -- lines 479-481

/-- `handle_order_confirmation` (line 407): run the confirmation loop with
`max_retries = 3` on the initial order-placement response. -/
def handle_order_confirmation (env : Nat → BrokerReply) (response_data : RespData) :
    ConfirmResult × Nat :=
  confirmLoop env 3 response_data 0

theorem confirmLoop_replies_le (env : Nat → BrokerReply) :
    ∀ (fuel : Nat) (d : RespData) (k : Nat), (confirmLoop env fuel d k).2 ≤ k + fuel := by
  intro fuel
  induction fuel with
  | zero => intro d k; simp [confirmLoop]
  | succ f ih =>
    intro d k
    cases d with
    | invalid => simp [confirmLoop]
    | record err oid pid =>
      cases err with
      | some e =>
        by_cases hf : 0 < f
        · cases pid with
          | some p =>
            simp only [confirmLoop, if_pos hf]
            exact le_trans (ih _ _) (by omega)
          | none => simp only [confirmLoop, if_pos hf]; omega
        · cases pid with
          | some p => simp only [confirmLoop, if_neg hf]; omega
          | none => simp only [confirmLoop, if_neg hf]; omega
      | none =>
        cases oid with
        | some o => simp only [confirmLoop]; omega
        | none =>
          cases pid with
          | none => simp only [confirmLoop]; omega
          | some p =>
            simp only [confirmLoop]
            split
            · omega
            · split
              · omega
              · exact le_trans (ih _ _) (by omega)

theorem confirmLoop_replies_ge (env : Nat → BrokerReply) :
    ∀ (fuel : Nat) (d : RespData) (k : Nat), k ≤ (confirmLoop env fuel d k).2 := by
  intro fuel
  induction fuel with
  | zero => intro d k; simp [confirmLoop]
  | succ f ih =>
    intro d k
    cases d with
    | invalid => simp [confirmLoop]
    | record err oid pid =>
      cases err with
      | some e =>
        by_cases hf : 0 < f
        · cases pid with
          | some p =>
            simp only [confirmLoop, if_pos hf]
            exact le_trans (by omega) (ih _ (k + 1))
          | none => simp only [confirmLoop, if_pos hf]; omega
        · cases pid with
          | some p => simp only [confirmLoop, if_neg hf]; omega
          | none => simp only [confirmLoop, if_neg hf]; omega
      | none =>
        cases oid with
        | some o => simp only [confirmLoop]; omega
        | none =>
          cases pid with
          | none => simp only [confirmLoop]; omega
          | some p =>
            simp only [confirmLoop]
            split
            · omega
            · split
              · omega
              · exact le_trans (by omega) (ih _ (k + 1))

/-- C3: For every possible sequence of broker responses (terminal order id,
confirmation prompt, error, or malformed — `env` ranges over all such
sequences and `d` over all initial responses), the order-confirmation loop
terminates and returns a result (it is a total function of its inputs)
after at most 3 confirmation round-trips. -/
theorem confirmation_bounded (env : Nat → BrokerReply) (d : RespData) :
    (handle_order_confirmation env d).2 ≤ 3 :=
  confirmLoop_replies_le env 3 d 0

/-- An environment in which the broker answers every confirmation reply
with a terminal order id `42`. -/
def envTerminal : Nat → BrokerReply :=
  fun _ => { status := 200, data := .record none (some "42") none }

/-- C4 counterexample: an initial response that carries an explicit
`error` field together with a prompt `id` does NOT transition the order to
Failed — the loop issues one further confirmation reply (round-trip count
1) and, the broker then answering with a terminal order id, returns a
success result in which the broker error text `"E"` is not preserved. -/
theorem error_retry_counterexample :
    handle_order_confirmation envTerminal (.record (some "E") none (some "p")) =
      (.confirmed "42", 1) := by
  decide

/-- An environment in which the broker answers every confirmation reply
with the same error-plus-prompt response. -/
def envAlwaysErr (e p : String) : Nat → BrokerReply :=
  fun _ => { status := 200, data := .record (some e) none (some p) }

/-- C4 amended: an error response with no prompt `id` transitions to Failed
at once, with no further confirmation replies, but WITHOUT the broker
error text (`errorNoIdForRetry`); an error response that carries a prompt
`id` triggers at least one further confirmation reply while retry budget
remains; only when the budget is exhausted on errors does the machine fail
with the broker-supplied error text preserved (`errorAfterRetries 3 e`,
after 2 round-trips). -/
theorem error_retry_amended (env : Nat → BrokerReply) (e : String) (oid : Option String) :
    handle_order_confirmation env (.record (some e) oid none) = (.errorNoIdForRetry, 0)
    ∧ (∀ p : String,
        1 ≤ (handle_order_confirmation env (.record (some e) oid (some p))).2)
    ∧ (∀ p : String,
        handle_order_confirmation (envAlwaysErr e p) (.record (some e) none (some p)) =
          (.errorAfterRetries 3 e, 2)) := by
  refine ⟨by simp [handle_order_confirmation, confirmLoop], ?_, ?_⟩
  · intro p
    have h : handle_order_confirmation env (.record (some e) oid (some p)) =
        confirmLoop env 2 (env 0).data 1 := by
      simp [handle_order_confirmation, confirmLoop]
    rw [h]
    exact confirmLoop_replies_ge env 2 (env 0).data 1
  · intro p
    simp [handle_order_confirmation, confirmLoop, envAlwaysErr]

/-- A dynamic cell value as it appears in a pandas frame handed to
`rebalance`: either a Python float/int or a string. -/
inductive PyVal where
  | num (q : ℚ) : PyVal
  | str (s : String) : PyVal
  deriving DecidableEq

/-- Value of a digit run, most significant first (the usual decimal
reading). -/
def digitsVal (l : List Char) : ℕ :=
  l.foldl (fun a c => 10 * a + (c.toNat - 48)) 0

/-- Python `float(s)` on a string `s` made only of decimal digits and
dots (the alphabet left after the regex strip below): the parse succeeds
iff there is at most one dot and at least one digit, giving
`intpart.fracpart`; otherwise `float` raises and the caller returns NaN
(modelled `none`). -/
def parseDigitsDot (l : List Char) : Option ℚ :=
  if l.count '.' ≤ 1 ∧ l.any Char.isDigit then
    let intPart := l.takeWhile (fun c => c ≠ '.')
    let fracPart := (l.dropWhile (fun c => c ≠ '.')).drop 1
    some ((digitsVal intPart : ℚ) + (digitsVal fracPart : ℚ) / (10 : ℚ) ^ fracPart.length)
  else none

/-- The string branch of `clean_numeric` (lines 898-904):
`re.sub(r'[^\d.]', '', value)` keeps only digits and dots, then
`float(cleaned_value)` (NaN on `ValueError`). -/
def cleanNumericStr (s : String) : Option ℚ :=
  parseDigitsDot (s.toList.filter (fun c => c.isDigit || c == '.'))

/-- `clean_numeric` (line 882): numeric input passes through as a float
(line 895-896), a string is stripped and parsed.  `none` models the NaN
return. -/
def clean_numeric : PyVal → Option ℚ
  | .num q => some q
  | .str s => cleanNumericStr s

unseal Rat.add Rat.mul Rat.inv Rat.sub in
/-- C10: on every string input, `clean_numeric` strips every character
except digits and the decimal point — including any minus sign — so when
it does not return NaN its result is a non-negative rational; in
particular the negative amount rendered as `"-1,234.56"` is converted to
its positive magnitude `1234.56`. -/
theorem clean_numeric_nonneg :
    (∀ (s : String) (q : ℚ), clean_numeric (.str s) = some q → 0 ≤ q)
    ∧ clean_numeric (.str "-1,234.56") = some (123456 / 100) := by
  constructor
  · intro s q h
    simp only [clean_numeric, cleanNumericStr, parseDigitsDot] at h
    split at h
    · injection h with h
      subst h
      have h1 : (0 : ℚ) ≤ (digitsVal (List.takeWhile (fun c => c ≠ '.')
          (s.toList.filter (fun c => c.isDigit || c == '.'))) : ℚ) := by positivity
      have h2 : (0 : ℚ) ≤ (digitsVal ((List.dropWhile (fun c => c ≠ '.')
          (s.toList.filter (fun c => c.isDigit || c == '.'))).drop 1) : ℚ) /
          (10 : ℚ) ^ ((List.dropWhile (fun c => c ≠ '.')
          (s.toList.filter (fun c => c.isDigit || c == '.'))).drop 1).length := by positivity
      exact add_nonneg h1 h2
    · exact absurd h (by simp)
  · decide

unseal Rat.add Rat.mul Rat.inv Rat.sub in
/-- C10 witness: the general theorem applied at the concrete string
`"-1,234.56"`, whose cleaned value is `1234.56 ≥ 0`. -/
theorem clean_numeric_nonneg_witness :
    clean_numeric (.str "-1,234.56") = some (123456 / 100) ∧ (0 : ℚ) ≤ 123456 / 100 :=
  ⟨by decide, clean_numeric_nonneg.1 "-1,234.56" (123456 / 100) (by decide)⟩

/-- One row of `summary_df`: the frame is indexed by field label with a
single `amount` column (see `account_summary`, which formats amounts as
strings such as `"1,234.56"`).  `summary_df.loc[label]['amount']` reads
the first row carrying the label. -/
structure SummaryRow where
  label : String
  amount : PyVal
  deriving DecidableEq

/-- One row of `market_data_df` with the columns `rebalance` requires
(line 939): `Ticker`, `conid`, `Last Price` (a dynamic cell, cleaned with
`clean_numeric` at line 951).  A missing `conid` cell (NaN) is `none`. -/
structure QuoteRow where
  ticker : String
  conid : Option Int
  lastPrice : PyVal
  deriving DecidableEq

/-- One row of `positions_df` with the columns `rebalance` requires
(line 934); `Position`, `mktValue` and `PnL` hold their values after
`pd.to_numeric(..., errors='coerce')` (lines 952-954), so `none` models a
cell that coerced to NaN. -/
structure PosRow where
  ticker : String
  conid : Option Int
  position : Option ℚ
  mktValue : Option ℚ
  pnl : Option ℚ
  deriving DecidableEq

/-- A market-data row whose `Last Price` has been successfully cleaned to
a number. -/
structure PricedQuote where
  ticker : String
  conid : Option Int
  price : ℚ
  deriving DecidableEq

/-- The left side of the merge at lines 968-974: a market-data row
enriched with `Target Shares` and `Target Market Value` (lines 964-965).
`targetShares` is a float column in pandas, hence `ℚ` holding an integer
value. -/
structure TargetRow where
  ticker : String
  conid : Option Int
  lastPrice : ℚ
  targetShares : ℚ
  targetValue : ℚ
  deriving DecidableEq

/-- One row of `rebalance_df` after the outer merge (lines 968-974) and
the NaN fill of lines 977-983.  `lastPrice` is not in the fill dictionary,
so it stays NaN (`none`) on position-only rows; the five filled columns
are total. -/
structure RebRow where
  ticker : String
  conid : Option Int
  lastPrice : Option ℚ
  targetShares : ℚ
  targetValue : ℚ
  position : ℚ
  mktValue : ℚ
  pnl : ℚ
  deriving DecidableEq

/-- Line 951 plus the NaN check of lines 956-958: clean every
`Last Price`; `none` when any row fails to clean (the run then errors). -/
def cleanPrices (marketData : List QuoteRow) : Option (List PricedQuote) :=
  marketData.mapM fun q =>
    (clean_numeric q.lastPrice).map fun p =>
      { ticker := q.ticker, conid := q.conid, price := p }

/-- `summary_df.loc[label]['amount']` with the presence test of line 930:
first row with the given index label, if any. -/
def lookupAmount (summary : List SummaryRow) (label : String) : Option PyVal :=
  (summary.find? fun r => r.label == label).map fun r => r.amount

/-- Rounding to the nearest integer, ties to even: the behaviour of the
Python built-in `round` as broadcast by pandas over a float series at
line 965. -/
def roundHalfEven (q : ℚ) : ℤ :=
  let f := Rat.floor q
  let r := q - (f : ℚ)
  if r < 1 / 2 then f
  else if 1 / 2 < r then f + 1
  else if f % 2 = 0 then f else f + 1

/-- Line 962: `target_market_value = (netliquidation * 0.8) / num_tickers`
— note the absence of any zero-divisor guard in the source; callers must
check `numTickers ≠ 0` themselves (see `RebalanceError.zeroDivisionCrash`). -/
def targetMarketValue (netliquidation : ℚ) (numTickers : ℕ) : ℚ :=
  netliquidation * (8 / 10) / numTickers

/-- Lines 964-965: assign every quoted row the equal-weight target market
value and the rounded target share count.  (A zero last price, which in
pandas would produce an infinite share count, is outside the modelled
domain; `ℚ` division by zero yields 0 instead.) -/
def mkTargets (netliquidation : ℚ) (prices : List PricedQuote) : List TargetRow :=
  let tv := targetMarketValue netliquidation prices.length
  prices.map fun p =>
    { ticker := p.ticker, conid := p.conid, lastPrice := p.price,
      targetShares := ((roundHalfEven (tv / p.price) : ℤ) : ℚ),
      targetValue := tv }

/-- The outer join of lines 968-974 (`on=['Ticker','conid']`, pandas merge
semantics: NaN keys match NaN keys) combined with the NaN fill of lines
977-983: every matched (left,right) pair gives a row, an unmatched
market row gets zero position/value/PnL, and an unmatched position row
gets zero target shares/value and a NaN last price. -/
def mergeOuter (targets : List TargetRow) (positions : List PosRow) : List RebRow :=
  (targets.map fun t =>
    let ms := positions.filter fun p => t.ticker == p.ticker && t.conid == p.conid
    if ms.isEmpty then
      [{ ticker := t.ticker, conid := t.conid, lastPrice := some t.lastPrice,
         targetShares := t.targetShares, targetValue := t.targetValue,
         position := 0, mktValue := 0, pnl := 0 }]
    else ms.map fun p =>
      { ticker := t.ticker, conid := t.conid, lastPrice := some t.lastPrice,
        targetShares := t.targetShares, targetValue := t.targetValue,
        position := p.position.getD 0, mktValue := p.mktValue.getD 0,
        pnl := p.pnl.getD 0 }).flatten
  ++ ((positions.filter fun p =>
        ! targets.any fun t => t.ticker == p.ticker && t.conid == p.conid).map fun p =>
      { ticker := p.ticker, conid := p.conid, lastPrice := none,
        targetShares := 0, targetValue := 0,
        position := p.position.getD 0, mktValue := p.mktValue.getD 0,
        pnl := p.pnl.getD 0 })

/-- Line 986: `Trade Quantity = Target Shares - Position`, the general
formula before the liquidation override. -/
def tradeQty0 (r : RebRow) : ℚ :=
  r.targetShares - r.position

/-- Line 989: for rows with `Target Shares == 0` the trade quantity is
overridden to `-Position` (full liquidation). -/
def tradeQuantity (r : RebRow) : ℚ :=
  if r.targetShares = 0 then -r.position else tradeQty0 r

/-- Line 992: `Difference = Target Market Value - mktValue`. -/
def valueDifference (r : RebRow) : ℚ :=
  r.targetValue - r.mktValue

/-- Line 993 and the tolerance test of line 999, with pandas float
semantics for the division: when `Target Market Value = 0`, the quotient
is `±inf` (absolute value exceeds every tolerance) for a nonzero
numerator and `NaN` (every comparison false) for a zero numerator. -/
def pctExceedsTol (r : RebRow) (tolerance : ℚ) : Bool :=
  if r.targetValue = 0 then valueDifference r ≠ 0
  else |valueDifference r / r.targetValue| > tolerance

/-- The row-selection predicate of lines 998-1001:
`|Difference (%)| > tolerance` OR `Target Shares == 0`. -/
def selectTrade (r : RebRow) (tolerance : ℚ) : Bool :=
  pctExceedsTol r tolerance || r.targetShares == 0

/-- Lines 1004-1009: a trade row whose `conid` is NaN takes the `conid` of
the first positions row with the same ticker, when one exists. -/
def fillConid (positions : List PosRow) (r : RebRow) : RebRow :=
  match r.conid with
  | some _ => r
  | none =>
    match positions.find? fun p => p.ticker == r.ticker with
    | some p => { r with conid := p.conid }
    | none => r

/-- Model of a datetime: minutes since an epoch; a `"%Y-%m-%d"` date
string converts to the midnight of its day. -/
def minutesPerDay : ℕ := 1440

/-- Midnight of the day containing `now`: the effect of
`strftime('%Y-%m-%d')` followed by `pd.to_datetime` on the stored sold
date (lines 1018, 1024, 1014). -/
def midnight (now : ℕ) : ℕ :=
  now / minutesPerDay * minutesPerDay

/-- One wash-sale ledger record: ticker, optional contract id (records
loaded from the legacy two-column table have none) and the sold date after
`pd.to_datetime(..., errors='coerce')` (line 1014) — `none` is NaT. -/
structure WashRecord where
  ticker : String
  conid : Option Int
  soldDate : Option ℕ
  deriving DecidableEq

/-- The retention predicate of line 1020:
`Sold date + timedelta(days=31) >= current_date`.  A NaT sold date fails
every comparison and is purged. -/
def washRetained (now : ℕ) (r : WashRecord) : Bool :=
  match r.soldDate with
  | some d => now ≤ d + 31 * minutesPerDay
  | none => false

/-- Line 1020: keep only unexpired ledger records. -/
def purgeWash (now : ℕ) (ledger : List WashRecord) : List WashRecord :=
  ledger.filter (washRetained now)

/-- The insert/refresh loop of lines 1022-1026, iterating over the new
wash-sale candidates: a ticker already in the ledger has its sold date
refreshed on every matching row; otherwise the WHOLE candidate frame
`new_washsales_df` is concatenated onto the ledger (`pd.concat` at line
1026 appends every candidate row, not just the current ticker's). -/
def insertWash (newRecs : List WashRecord) (ledger : List WashRecord) : List WashRecord :=
  newRecs.foldl
    (fun led r =>
      if led.any fun x => x.ticker == r.ticker then
        led.map fun x =>
          if x.ticker == r.ticker then { x with soldDate := r.soldDate } else x
      else led ++ newRecs)
    ledger

/-- The two dataframes `rebalance` returns on success (line 1036): the
final trade list and the updated wash-sale ledger. -/
structure RebalanceResult where
  tradeList : List RebRow
  washLedger : List WashRecord
  deriving DecidableEq

/-- The failure modes of `rebalance`:
* `missingSummaryField` — lines 930-932, a required summary label is
  absent; the function returns the explicit error value `(None, None)`;
* `summaryNotNumeric` — lines 947-949, `totalcashvalue` or
  `netliquidation` is NaN after `clean_numeric`; returns `(None, None)`;
* `lastPriceNotNumeric` — lines 956-958, some `Last Price` is NaN after
  cleaning; returns `(None, None)`;
* `zeroDivisionCrash` — line 962 with `num_tickers == 0`: the source has
  NO guard here, so Python raises an uncaught `ZeroDivisionError` that
  propagates out of `rebalance` (the caller at line 1468 has only a generic
  handler that terminates the process); this constructor models that
  crash, NOT an explicit error return. -/
inductive RebalanceError where
  | missingSummaryField : RebalanceError
  | summaryNotNumeric : RebalanceError
  | lastPriceNotNumeric : RebalanceError
  | zeroDivisionCrash : RebalanceError
  deriving DecidableEq

/-- The planning pipeline of lines 960-1036, after input validation has
produced a numeric net liquidation value and a fully priced quote list:
target allocation, outer merge, trade-quantity computation, tolerance
selection, conid fill, wash-sale purge / candidate insert, and the final
wash-sale exclusion filter. -/
def planTrades (now : ℕ) (ledger0 : List WashRecord) (netliquidation : ℚ)
    (positions : List PosRow) (prices : List PricedQuote) (tolerance : ℚ) :
    RebalanceResult :=
  let targets := mkTargets netliquidation prices
  let merged := mergeOuter targets positions
  let tradeSel := merged.filter fun r => selectTrade r tolerance
  let tradeFilled := tradeSel.map (fillConid positions)
  let ledger1 := purgeWash now ledger0
  let newRecs :=
    (tradeFilled.filter fun r => decide (r.pnl < 0) && decide (tradeQuantity r < 0)).map
      fun r => { ticker := r.ticker, conid := r.conid, soldDate := some (midnight now) }
  let ledger2 := insertWash newRecs ledger1
  { tradeList := tradeFilled.filter fun r => ! ledger2.any fun w => w.ticker == r.ticker,
    washLedger := ledger2 }

/-- `rebalance` (line 907).  Inputs: the current datetime (`datetime.now()`),
the persisted wash-sale ledger (`fetch_washsales`), and the three frames;
`tolerance` defaults to `0.10` at the call site.  The positions/market
column checks of lines 934-942 are schema checks made vacuous by the typed
rows here; the summary checks and numeric validation are modelled
explicitly.  On success returns the trade list and updated ledger; the
ledger write-back (`update_washsales`) persists `washLedger` wholesale. -/
def rebalance (now : ℕ) (ledger0 : List WashRecord) (summary : List SummaryRow)
    (positions : List PosRow) (marketData : List QuoteRow) (tolerance : ℚ) :
    Except RebalanceError RebalanceResult :=
  match lookupAmount summary "totalcashvalue", lookupAmount summary "netliquidation" with
  | some tcv, some nlv =>
    match clean_numeric tcv, clean_numeric nlv with
    | some _, some netliquidation =>
      match cleanPrices marketData with
      | none => .error .lastPriceNotNumeric
      | some prices =>
        if prices.length = 0 then .error .zeroDivisionCrash
        else .ok (planTrades now ledger0 netliquidation positions prices tolerance)
    | _, _ => .error .summaryNotNumeric
  | _, _ => .error .missingSummaryField

/-- C5 counterexample: at a run time of 10:00 on day 31, a ledger record
whose sold date is day 0 — exactly 31 days before today — is NOT retained:
sold dates are stored at midnight, `current_date` is `datetime.now()` with
its time of day, and `midnight + 31 days < now` whenever the run happens
after midnight.  The claim asserts such a record is retained; the purge
drops it. -/
theorem ledger_boundary_counterexample :
    washRetained (31 * 1440 + 600) { ticker := "X", conid := none, soldDate := some 0 } = false
    ∧ purgeWash (31 * 1440 + 600) [{ ticker := "X", conid := none, soldDate := some 0 }] = [] := by
  constructor
  · decide
  · decide

/-- C5 amended: a record is retained exactly when
`sold_date + 31 days >= now` with the sold date at midnight; consequently,
for a run at `t` minutes past midnight on day `D` (any `D ≥ 32`,
`t < 1440`), the record sold exactly 31 days before today is retained only
when `t = 0` (a run exactly at midnight), a record sold 30 days before
today is always retained, and a record sold 32 days before today is always
purged. -/
theorem ledger_boundary_amended (D t : ℕ) (hD : 32 ≤ D) (ht : t < 1440) :
    (∀ r : WashRecord, ∀ d : ℕ, r.soldDate = some d →
      (washRetained (D * 1440 + t) r = true ↔ D * 1440 + t ≤ d + 31 * 1440))
    ∧ washRetained (D * 1440 + t)
        { ticker := "X", conid := none, soldDate := some ((D - 31) * 1440) } = decide (t = 0)
    ∧ washRetained (D * 1440 + t)
        { ticker := "X", conid := none, soldDate := some ((D - 30) * 1440) } = true
    ∧ washRetained (D * 1440 + t)
        { ticker := "X", conid := none, soldDate := some ((D - 32) * 1440) } = false := by
  refine ⟨?_, ?_, ?_, ?_⟩
  · intro r d hd
    simp [washRetained, hd, minutesPerDay]
  · simp only [washRetained, minutesPerDay]
    rw [decide_eq_decide]
    omega
  · simp only [washRetained, minutesPerDay]
    rw [decide_eq_true_eq]
    omega
  · simp only [washRetained, minutesPerDay]
    rw [decide_eq_false_iff_not]
    omega

/-- C5 amended witness: the amended boundary facts instantiated on day 40
at 10:00 (`t = 600`). -/
theorem ledger_boundary_amended_witness :
    washRetained (40 * 1440 + 600)
        { ticker := "X", conid := none, soldDate := some ((40 - 31) * 1440) } = decide ((600:ℕ) = 0)
    ∧ washRetained (40 * 1440 + 600)
        { ticker := "X", conid := none, soldDate := some ((40 - 30) * 1440) } = true
    ∧ washRetained (40 * 1440 + 600)
        { ticker := "X", conid := none, soldDate := some ((40 - 32) * 1440) } = false :=
  ⟨(ledger_boundary_amended 40 600 (by decide) (by decide)).2.1,
   (ledger_boundary_amended 40 600 (by decide) (by decide)).2.2.1,
   (ledger_boundary_amended 40 600 (by decide) (by decide)).2.2.2⟩

instance {ε α : Type} [DecidableEq ε] [DecidableEq α] : DecidableEq (Except ε α) := fun x y =>
  match x, y with
  | .ok a, .ok b =>
    if h : a = b then isTrue (by rw [h]) else isFalse (by intro hc; cases hc; exact h rfl)
  | .error a, .error b =>
    if h : a = b then isTrue (by rw [h]) else isFalse (by intro hc; cases hc; exact h rfl)
  | .ok _, .error _ => isFalse (by intro hc; cases hc)
  | .error _, .ok _ => isFalse (by intro hc; cases hc)

/-- A well-formed account summary for concrete runs: cash 200, net
liquidation 1,000 (amounts are the comma-formatted strings produced by
`account_summary`). -/
def summaryOk : List SummaryRow :=
  [{ label := "totalcashvalue", amount := .str "200" },
   { label := "netliquidation", amount := .str "1,000" }]

unseal Rat.add Rat.mul Rat.inv Rat.sub in
/-- C6: with zero quoted tickers the division at line 962 is NOT guarded:
the planner neither checks `num_tickers` nor returns the explicit
`(None, None)` error value — `(netliquidation * 0.8) / num_tickers` raises
an uncaught `ZeroDivisionError` (modelled by
`RebalanceError.zeroDivisionCrash`, distinct from every explicit
validation return).  Evaluated here on an empty market-data frame with an
otherwise valid summary. -/
theorem zero_ticker_division_crash :
    rebalance (100 * 1440 + 600) [] summaryOk [] [] (1 / 10) =
      .error .zeroDivisionCrash := by
  decide

/-- Positions used for the duplicate-ledger-record run: tickers `A` and
`B` both held at a loss, absent from the quoted universe. -/
def positionsAB : List PosRow :=
  [{ ticker := "A", conid := some 11, position := some 10,
     mktValue := some 100, pnl := some (-5) },
   { ticker := "B", conid := some 12, position := some 20,
     mktValue := some 50, pnl := some (-3) }]

unseal Rat.add Rat.mul Rat.inv Rat.sub in
/-- C7: a run on day 100 at 10:00 in which the quoted universe is `{C}`,
`A` and `B` are both loss-sale candidates, and `B` already has an
unexpired ledger record (sold at midnight of day 97).  The insert loop of
lines 1022-1026 concatenates the WHOLE candidate frame when it meets the
new ticker `A`, so the refreshed old `B` row and the concatenated new `B`
row both survive: the returned ledger carries ticker `B` twice, violating
the at-most-one-record-per-ticker claim. -/
theorem washsale_duplicate_records :
    (rebalance (100 * 1440 + 600)
        [{ ticker := "B", conid := none, soldDate := some (97 * 1440) }]
        summaryOk positionsAB
        [{ ticker := "C", conid := some 13, lastPrice := .num 10 }]
        (1 / 10)).map
      (fun res => (res.washLedger.filter fun r => r.ticker == "B").length) = .ok 2 := by
  decide

theorem filter_not_any_ticker {trade : List RebRow} {ledger : List WashRecord} {r : RebRow}
    (hr : r ∈ trade.filter fun x => ! ledger.any fun w => w.ticker == x.ticker)
    {w : WashRecord} (hw : w ∈ ledger) : r.ticker ≠ w.ticker := by
  intro heq
  rw [List.mem_filter] at hr
  have h2 := hr.2
  rw [Bool.not_eq_true', List.any_eq_false] at h2
  exact h2 w hw (by simp [heq])

theorem planTrades_wash_exclusion (now : ℕ) (ledger0 : List WashRecord)
    (netliquidation : ℚ) (positions : List PosRow) (prices : List PricedQuote)
    (tolerance : ℚ) :
    ∀ r ∈ (planTrades now ledger0 netliquidation positions prices tolerance).tradeList,
    ∀ w ∈ (planTrades now ledger0 netliquidation positions prices tolerance).washLedger,
      r.ticker ≠ w.ticker := by
  intro r hr w hw
  simp only [planTrades] at hr hw
  exact filter_not_any_ticker hr hw

/-- C1: on every successful run of the planner, every ticker present in
the wash-sale set after purge and insert — `res.washLedger`, which
includes the records flagged this run — is absent from the trade list the
planner returns (`res.tradeList`), by the exclusion filter at line 1028. -/
theorem washsale_exclusion (now : ℕ) (ledger0 : List WashRecord)
    (summary : List SummaryRow) (positions : List PosRow)
    (marketData : List QuoteRow) (tolerance : ℚ) (res : RebalanceResult)
    (hok : rebalance now ledger0 summary positions marketData tolerance = .ok res)
    (r : RebRow) (hr : r ∈ res.tradeList)
    (w : WashRecord) (hw : w ∈ res.washLedger) :
    r.ticker ≠ w.ticker := by
  unfold rebalance at hok
  split at hok
  · split at hok
    · split at hok
      · exact absurd hok (by simp)
      · split at hok
        · exact absurd hok (by simp)
        · injection hok with h
          subst h
          exact planTrades_wash_exclusion _ _ _ _ _ _ r hr w hw
    · exact absurd hok (by simp)
  · exact absurd hok (by simp)

/-- The trade row and wash record produced by the concrete run used to
witness the wash-sale exclusion. -/
def wCrow : RebRow :=
  { ticker := "C", conid := some 13, lastPrice := some 10,
    targetShares := 80, targetValue := 800, position := 0, mktValue := 0, pnl := 0 }

def wArec : WashRecord :=
  { ticker := "A", conid := some 11, soldDate := some 144000 }

def wRunRes : RebalanceResult :=
  { tradeList := [wCrow],
    washLedger := [{ ticker := "B", conid := none, soldDate := some 144000 },
                   wArec,
                   { ticker := "B", conid := some 12, soldDate := some 144000 }] }

/-- The starting ledger and quoted universe of the witness run. -/
def wLedger0 : List WashRecord :=
  [{ ticker := "B", conid := none, soldDate := some (97 * 1440) }]

def wMarketC : List QuoteRow :=
  [{ ticker := "C", conid := some 13, lastPrice := .num 10 }]

unseal Rat.add Rat.mul Rat.inv Rat.sub in
/-- C1 witness: the day-100 run with universe `{C}` and loss positions
`A`, `B` succeeds with trade list `[C]` and a three-record wash ledger;
the theorem applied to the `C` trade row and the `A` wash record. -/
theorem washsale_exclusion_witness :
    rebalance (100 * 1440 + 600) wLedger0 summaryOk positionsAB wMarketC (1 / 10) = .ok wRunRes
    ∧ wCrow.ticker ≠ wArec.ticker :=
  ⟨by decide,
   washsale_exclusion (100 * 1440 + 600) wLedger0 summaryOk positionsAB wMarketC (1 / 10)
     wRunRes (by decide) wCrow (by decide) wArec (by decide)⟩

/-- C2: in the merged rebalance table, every row whose target shares equal
0 (in particular a ticker held in current positions but absent from the
quoted universe) has trade quantity `-current_position` (line 989), and
the row passes the trade-list selection of lines 998-1001 whatever the
tolerance, through the `Target Shares == 0` disjunct. -/
theorem liquidation_override (targets : List TargetRow) (positions : List PosRow)
    (tolerance : ℚ) (r : RebRow) (hr : r ∈ mergeOuter targets positions)
    (h0 : r.targetShares = 0) :
    tradeQuantity r = -r.position
    ∧ r ∈ (mergeOuter targets positions).filter fun x => selectTrade x tolerance := by
  refine ⟨by simp [tradeQuantity, h0], ?_⟩
  rw [List.mem_filter]
  exact ⟨hr, by simp [selectTrade, h0]⟩

/-- The position-only merged row used to witness the liquidation
override. -/
def wPB : PosRow :=
  { ticker := "B", conid := some 7, position := some 10,
    mktValue := some 100, pnl := some (-5) }

def wRB : RebRow :=
  { ticker := "B", conid := some 7, lastPrice := none,
    targetShares := 0, targetValue := 0, position := 10, mktValue := 100, pnl := -5 }

unseal Rat.add Rat.mul Rat.inv Rat.sub in
/-- C2 witness: with an empty quoted universe and position `B`, the merged
table holds the single position-only row `wRB` with zero target shares;
the theorem yields its `-10` trade quantity and its selection at tolerance
`0.10`. -/
theorem liquidation_override_witness :
    wRB ∈ mergeOuter [] [wPB] ∧ wRB.targetShares = 0
    ∧ tradeQuantity wRB = -wRB.position
    ∧ wRB ∈ (mergeOuter [] [wPB]).filter fun x => selectTrade x (1 / 10) :=
  ⟨by decide, by decide,
   (liquidation_override [] [wPB] (1 / 10) wRB (by decide) (by decide)).1,
   (liquidation_override [] [wPB] (1 / 10) wRB (by decide) (by decide)).2⟩

theorem sum_map_const {α : Type} (l : List α) (c : ℚ) :
    (l.map fun _ => c).sum = l.length * c := by
  induction l with
  | nil => simp
  | cons a t ih =>
    simp only [List.map_cons, List.sum_cons, ih, List.length_cons]
    push_cast
    ring

/-- C8: for a non-empty quoted universe, every row is assigned the target
market value `netliquidation * 0.8 / N` (lines 962-964), so the target
values of the quoted rows sum to exactly `0.8 × netliquidation` — exact in
the real-valued model, before integer share rounding. -/
theorem allocation_conservation (netliquidation : ℚ) (prices : List PricedQuote)
    (h : prices ≠ []) :
    ((mkTargets netliquidation prices).map TargetRow.targetValue).sum
      = 8 / 10 * netliquidation := by
  have hn : (prices.length : ℚ) ≠ 0 := by
    have := List.length_pos.mpr h
    exact_mod_cast Nat.pos_iff_ne_zero.mp this
  simp only [mkTargets, List.map_map]
  have hmap :
      (TargetRow.targetValue ∘ fun p : PricedQuote =>
        ({ ticker := p.ticker, conid := p.conid, lastPrice := p.price,
           targetShares :=
             ((roundHalfEven (targetMarketValue netliquidation prices.length / p.price) : ℤ) : ℚ),
           targetValue := targetMarketValue netliquidation prices.length } : TargetRow))
        = fun _ => targetMarketValue netliquidation prices.length := rfl
  rw [hmap, sum_map_const, targetMarketValue]
  field_simp
  ring

unseal Rat.add Rat.mul Rat.inv Rat.sub in
/-- C8 witness: the theorem at the single quote `A` priced 10 with net
liquidation 1000: the (single) target value sums to `800 = 0.8 × 1000`. -/
theorem allocation_conservation_witness :
    ([{ ticker := "A", conid := some 1, price := 10 }] : List PricedQuote) ≠ []
    ∧ ((mkTargets 1000 [{ ticker := "A", conid := some 1, price := 10 }]).map
        TargetRow.targetValue).sum = 8 / 10 * 1000 :=
  ⟨by decide,
   allocation_conservation 1000 [{ ticker := "A", conid := some 1, price := 10 }] (by decide)⟩

/-- C9: the planner fails with the explicit error value of lines 930-932
whenever the summary lacks `totalcashvalue` or `netliquidation`, fails
with the explicit error value of lines 947-949 whenever either amount is
NaN after `clean_numeric`, and when both amounts clean to numbers it
proceeds past the summary validation (its result is neither of those two
errors). -/
theorem summary_validation (now : ℕ) (ledger0 : List WashRecord)
    (summary : List SummaryRow) (positions : List PosRow)
    (marketData : List QuoteRow) (tolerance : ℚ) :
    ((lookupAmount summary "totalcashvalue" = none
        ∨ lookupAmount summary "netliquidation" = none) →
      rebalance now ledger0 summary positions marketData tolerance =
        .error .missingSummaryField)
    ∧ (∀ a b : PyVal, lookupAmount summary "totalcashvalue" = some a →
        lookupAmount summary "netliquidation" = some b →
        (clean_numeric a = none ∨ clean_numeric b = none) →
        rebalance now ledger0 summary positions marketData tolerance =
          .error .summaryNotNumeric)
    ∧ (∀ (a b : PyVal) (qa qb : ℚ), lookupAmount summary "totalcashvalue" = some a →
        lookupAmount summary "netliquidation" = some b →
        clean_numeric a = some qa → clean_numeric b = some qb →
        rebalance now ledger0 summary positions marketData tolerance ≠
          .error .missingSummaryField
        ∧ rebalance now ledger0 summary positions marketData tolerance ≠
          .error .summaryNotNumeric) := by
  refine ⟨?_, ?_, ?_⟩
  · intro h
    unfold rebalance
    rcases h with h | h
    · rw [h]
    · rw [h]
      cases lookupAmount summary "totalcashvalue" <;> rfl
  · intro a b ha hb hcl
    simp only [rebalance, ha, hb]
    rcases hcl with h | h
    · rw [h]
    · rw [h]
      cases clean_numeric a <;> rfl
  · intro a b qa qb ha hb hqa hqb
    simp only [rebalance, ha, hb, hqa, hqb]
    cases hcp : cleanPrices marketData with
    | none => exact ⟨by simp, by simp⟩
    | some prices =>
      dsimp only
      constructor <;> (split <;> simp)

/-- C9 witness: the theorem's first branch at the empty summary: the run
returns the explicit missing-field error value. -/
theorem summary_validation_witness :
    rebalance 0 [] [] [] [] (1 / 10) = .error .missingSummaryField :=
  (summary_validation 0 [] [] [] [] (1 / 10)).1 (Or.inl rfl)
